import Mathlib

/-!
Verification of the inx-app node-bridge core (package `nodebridge`).

The Go sources are embedded shallowly:
* `ListenToStream` (the generic stream consumer) becomes a recursive function
  over the finite list of results the receive function will produce, together
  with a predicate saying at which loop iterations the context is observed
  cancelled; it returns the list of items the consumer was invoked on and the
  final outcome.
* The capability pollers `Indexer` / `EventAPI` become fuel-indexed loops that
  additionally count the one-second sleeps they perform.
* `Connect` becomes a state transformer over the `nodeBridge` record, with the
  transport dial, the retrying configuration fetch, and the status read
  supplied by an environment record; the configured grpc-retry interceptor
  (bounded attempt count, one-second backoff before every attempt but the
  first) is embedded as `retryLoop`.
* `Run`'s shutdown behaviour becomes a small labelled transition system over
  interleavings of the main task and the background status-subscription task.
-/

namespace InxApp

/-! ### Generic stream consumer: `ListenToStream` (part_000 lines 303-327)

The receive function is modelled by the finite list of results it will return,
one per call, in order.  A result is either an item, the clean end-of-stream
signal `io.EOF`, a gRPC `Canceled` status, or some other error. -/

inductive Recv (K E : Type) where
  | item : K → Recv K E
  | eofRecv : Recv K E
  | canceledRecv : Recv K E
  | errRecv : E → Recv K E
deriving DecidableEq, Repr

/-- Outcome of one run of the consumer loop: `none` means the modelled stream
ran out of scripted results (the real loop would still be blocked inside the
receive call); `some none` is a `nil` (success) return; `some (some e)` is an
error return. -/
abbrev StreamOutcome (E : Type) := Option (Option E)

/-- Shallow embedding of `ListenToStream`.  `consumerFunc k = none` models a
`nil` return of the consumer, `some e` an error.  `ctxErr i` tells whether
`ctx.Err() != nil` at the check that follows the `i`-th successful receive
(0-based).  The first component of the result is the list of items the
consumer was invoked on, in invocation order; the second is the outcome. -/
def listenToStream {K E : Type} (consumerFunc : K → Option E) (ctxErr : Nat → Bool) :
    List (Recv K E) → Nat → List K × StreamOutcome E
  | [], _ => ([], none)
  | Recv.eofRecv :: _, _ => ([], some none)
  | Recv.canceledRecv :: _, _ => ([], some none)
  | Recv.errRecv e :: _, _ => ([], some (some e))
  | Recv.item k :: rest, i =>
    if ctxErr i then ([], some none)
    else
      match consumerFunc k with
      | some e => ([k], some (some e))
      | none =>
        let r := listenToStream consumerFunc ctxErr rest (i + 1)
        (k :: r.1, r.2)

/-- Helper: with a never-cancelled context and an always-succeeding consumer,
the loop walks through all scripted items and continues on the tail. -/
theorem listenToStream_items {K E : Type} (consumerFunc : K → Option E)
    (ks : List K) (rest : List (Recv K E)) (i : Nat)
    (hok : ∀ k ∈ ks, consumerFunc k = none) :
    listenToStream consumerFunc (fun _ => false) (ks.map Recv.item ++ rest) i =
      (ks ++ (listenToStream consumerFunc (fun _ => false) rest (i + ks.length)).1,
        (listenToStream consumerFunc (fun _ => false) rest (i + ks.length)).2) := by
  induction ks generalizing i with
  | nil => simp [listenToStream]
  | cons k ks ih =>
    have hk : consumerFunc k = none := hok k (by simp)
    have hks : ∀ k' ∈ ks, consumerFunc k' = none := fun k' h' => hok k' (by simp [h'])
    simp only [List.map_cons, List.cons_append, listenToStream, Bool.false_eq_true,
      if_false, hk, List.append_eq]
    rw [ih (i + 1) hks]
    simp [Nat.add_comm, Nat.add_assoc, Nat.add_left_comm]

/-- C2: a scripted sequence of items ending in a clean end-of-stream signal
(`io.EOF` or gRPC `Canceled`), with an uncancelled context and a succeeding
consumer, makes `ListenToStream` return success having invoked the consumer
exactly once per item, in delivery order, and never after the terminator. -/
theorem listenToStream_clean_end {K E : Type} (consumerFunc : K → Option E)
    (ks : List K) (t : Recv K E) (rest : List (Recv K E))
    (hok : ∀ k ∈ ks, consumerFunc k = none)
    (ht : t = Recv.eofRecv ∨ t = Recv.canceledRecv) :
    listenToStream consumerFunc (fun _ => false) (ks.map Recv.item ++ t :: rest) 0 =
      (ks, some none) := by
  rw [listenToStream_items consumerFunc ks (t :: rest) 0 hok]
  rcases ht with h | h <;> subst h <;> simp [listenToStream]

/-- C2 witness at a concrete input. -/
theorem listenToStream_clean_end_witness :
    listenToStream (K := Nat) (E := Nat) (fun _ => none) (fun _ => false)
      ([7, 8, 9].map Recv.item ++ Recv.eofRecv :: []) 0 = ([7, 8, 9], some none) :=
  listenToStream_clean_end (fun _ => none) [7, 8, 9] Recv.eofRecv []
    (fun _ _ => rfl) (Or.inl rfl)

/-- Helper for C3: with a context first observed cancelled at check `j`
(`ctx.Err() != nil` from the `j`-th check on), starting at loop index `i`,
the loop consumes the items before the cancellation check and then stops
with success, dropping the item received at index `j`. -/
theorem listenToStream_cancel_aux {K E : Type} (consumerFunc : K → Option E) (j : Nat) :
    ∀ (ks : List K) (rest : List (Recv K E)) (i : Nat),
      (∀ k ∈ ks, consumerFunc k = none) → i ≤ j → j - i < ks.length →
      listenToStream consumerFunc (fun m => decide (j ≤ m)) (ks.map Recv.item ++ rest) i =
        (ks.take (j - i), some none) := by
  intro ks
  induction ks with
  | nil => intro rest i _ _ hlt; simp at hlt
  | cons k ks ih =>
    intro rest i hok hij hlt
    by_cases hji : j ≤ i
    · have : i = j := Nat.le_antisymm hij hji
      subst this
      simp [listenToStream]
    · have hk : consumerFunc k = none := hok k (by simp)
      have hks : ∀ k' ∈ ks, consumerFunc k' = none := fun k' h' => hok k' (by simp [h'])
      have hdec : (decide (j ≤ i)) = false := by simp [hji]
      simp only [List.map_cons, List.cons_append, listenToStream, hdec, if_false,
        Bool.false_eq_true, hk, List.append_eq]
      rw [ih rest (i + 1) hks (by omega) (by simp at hlt ⊢; omega)]
      have hsub : j - i = (j - (i + 1)) + 1 := by omega
      simp [hsub]

/-- C3: when the context is cancelled before the `(j+1)`-th receive returns an
item (first observed cancelled at check `j`), `ListenToStream` returns success
having invoked the consumer only on the first `j` items; the item received
just before cancellation was observed is dropped, not delivered. -/
theorem listenToStream_ctx_cancel {K E : Type} (consumerFunc : K → Option E)
    (ks : List K) (rest : List (Recv K E)) (j : Nat)
    (hok : ∀ k ∈ ks, consumerFunc k = none) (hj : j < ks.length) :
    listenToStream consumerFunc (fun m => decide (j ≤ m)) (ks.map Recv.item ++ rest) 0 =
      (ks.take j, some none) := by
  simpa using listenToStream_cancel_aux consumerFunc j ks rest 0 hok (Nat.zero_le j)
    (by simpa using hj)

/-- C3 witness at a concrete input: cancellation observed at check 1 makes the
consumer run on item 4 only, dropping the already-received item 5. -/
theorem listenToStream_ctx_cancel_witness :
    listenToStream (K := Nat) (E := Nat) (fun _ => none) (fun m => decide (1 ≤ m))
      ([4, 5, 6].map Recv.item ++ []) 0 = ([4], some none) := by
  simpa using listenToStream_ctx_cancel (K := Nat) (E := Nat) (fun _ => none) [4, 5, 6] [] 1
    (fun _ _ => rfl) (by decide)

/-- C4: (a) when the consumer fails on an item, `ListenToStream` returns that
exact error and the consumer is never invoked on any later item (its
invocation list ends at the failing item); (b) when the receive function
returns an error other than `io.EOF` or gRPC `Canceled`, that error is
propagated verbatim and the consumer is not invoked again. -/
theorem listenToStream_error_prop {K E : Type} (consumerFunc : K → Option E)
    (ks : List K) (k0 : K) (e : E) (rest : List (Recv K E))
    (hok : ∀ k ∈ ks, consumerFunc k = none) :
    (consumerFunc k0 = some e →
      listenToStream consumerFunc (fun _ => false)
          (ks.map Recv.item ++ Recv.item k0 :: rest) 0 = (ks ++ [k0], some (some e))) ∧
    listenToStream consumerFunc (fun _ => false)
        (ks.map Recv.item ++ Recv.errRecv e :: rest) 0 = (ks, some (some e)) := by
  constructor
  · intro hk0
    rw [listenToStream_items consumerFunc ks (Recv.item k0 :: rest) 0 hok]
    simp [listenToStream, hk0]
  · rw [listenToStream_items consumerFunc ks (Recv.errRecv e :: rest) 0 hok]
    simp [listenToStream]

/-- C4 witness at a concrete input. -/
theorem listenToStream_error_prop_witness :
    listenToStream (K := Nat) (E := Nat) (fun k => if k = 5 then some 9 else none)
        (fun _ => false) ([4].map Recv.item ++ Recv.item 5 :: []) 0 = ([4, 5], some (some 9)) ∧
    listenToStream (K := Nat) (E := Nat) (fun k => if k = 5 then some 9 else none)
        (fun _ => false) ([4].map Recv.item ++ Recv.errRecv 9 :: []) 0 = ([4], some (some 9)) :=
  ⟨(listenToStream_error_prop (fun k => if k = 5 then some 9 else none) [4] 5 9 []
      (by decide)).1 (by decide),
   (listenToStream_error_prop (fun k => if k = 5 then some 9 else none) [4] 5 9 []
      (by decide)).2⟩

/-! ### Capability pollers: `Indexer` (part_000 lines 237-267) and
`EventAPI` (part_000 lines 272-301)

The probe (`getIndexerClient` / `getEventAPIClient`, a one-second-timeout
attempt to obtain the plugin handle) is modelled by the result of each
attempt; `ctxDone i` tells whether `ctx.Err() != nil` at the loop-entry check
preceding attempt `i`.  The loop is made structurally recursive on a fuel
argument; `none` means the fuel ran out before the loop settled. -/

inductive ProbeResult (H E : Type) where
  | ok : H → ProbeResult H E
  | notAvailable : ProbeResult H E
  | otherErr : E → ProbeResult H E
deriving DecidableEq, Repr

inductive PollOutcome (H E : Type) where
  | handle : H → PollOutcome H E
  | notAvailableErr : PollOutcome H E
  | err : E → PollOutcome H E
deriving DecidableEq, Repr

/-- Shallow embedding of the retry loop of `Indexer`: the `notAvailableErr`
outcome stands for `nodeclient.ErrIndexerPluginNotAvailable`.  The second
component of the result counts the one-second `time.Sleep` calls performed. -/
def indexerPoll {H E : Type} (probe : Nat → ProbeResult H E) (ctxDone : Nat → Bool) :
    Nat → Nat → Nat → Option (PollOutcome H E × Nat)
  | 0, _, _ => none
  | fuel + 1, i, sleeps =>
    if ctxDone i then some (PollOutcome.notAvailableErr, sleeps)
    else
      match probe i with
      | ProbeResult.ok h => some (PollOutcome.handle h, sleeps)
      | ProbeResult.otherErr e => some (PollOutcome.err e, sleeps)
      | ProbeResult.notAvailable => indexerPoll probe ctxDone fuel (i + 1) (sleeps + 1)

/-- Shallow embedding of the retry loop of `EventAPI` (textually the same loop
as `Indexer`'s, with `nodeclient.ErrMQTTPluginNotAvailable` as the
`notAvailableErr` outcome). -/
def eventAPIPoll {H E : Type} (probe : Nat → ProbeResult H E) (ctxDone : Nat → Bool) :
    Nat → Nat → Nat → Option (PollOutcome H E × Nat)
  | 0, _, _ => none
  | fuel + 1, i, sleeps =>
    if ctxDone i then some (PollOutcome.notAvailableErr, sleeps)
    else
      match probe i with
      | ProbeResult.ok h => some (PollOutcome.handle h, sleeps)
      | ProbeResult.otherErr e => some (PollOutcome.err e, sleeps)
      | ProbeResult.notAvailable => eventAPIPoll probe ctxDone fuel (i + 1) (sleeps + 1)

/-- The two pollers run the very same loop. -/
theorem eventAPIPoll_eq_indexerPoll {H E : Type} (probe : Nat → ProbeResult H E)
    (ctxDone : Nat → Bool) (fuel i sleeps : Nat) :
    eventAPIPoll probe ctxDone fuel i sleeps = indexerPoll probe ctxDone fuel i sleeps := by
  induction fuel generalizing i sleeps with
  | zero => rfl
  | succ fuel ih =>
    simp only [eventAPIPoll, indexerPoll]
    split
    · rfl
    · cases probe i <;> simp [ih]

/-- Helper: a probe failing `notAvailable` on the first `m` attempts, with the
context alive throughout them, leads to attempt `m` with `m` sleeps done. -/
theorem indexerPoll_notAvail_steps {H E : Type} (probe : Nat → ProbeResult H E)
    (ctxDone : Nat → Bool) (m : Nat) :
    ∀ (fuel i sleeps : Nat),
      (∀ d, d < m → probe (i + d) = ProbeResult.notAvailable) →
      (∀ d, d < m → ctxDone (i + d) = false) →
      indexerPoll probe ctxDone (fuel + m) i sleeps =
        indexerPoll probe ctxDone fuel (i + m) (sleeps + m) := by
  induction m with
  | zero => intro fuel i sleeps _ _; rfl
  | succ m ih =>
    intro fuel i sleeps hp hc
    have hc0 : ctxDone i = false := by simpa using hc 0 (by omega)
    have hp0 : probe i = ProbeResult.notAvailable := by simpa using hp 0 (by omega)
    have hstep : fuel + (m + 1) = (fuel + m) + 1 := by omega
    rw [hstep]
    simp only [indexerPoll, hc0, Bool.false_eq_true, if_false, hp0]
    rw [ih fuel (i + 1) (sleeps + 1)
      (fun d hd => by have := hp (d + 1) (by omega); simpa [Nat.add_assoc, Nat.add_comm,
        Nat.add_left_comm] using this)
      (fun d hd => by have := hc (d + 1) (by omega); simpa [Nat.add_assoc, Nat.add_comm,
        Nat.add_left_comm] using this)]
    congr 1 <;> omega

/-- C5: the capability pollers `Indexer` and `EventAPI` (which run the same
loop, `eventAPIPoll_eq_indexerPoll`) satisfy: (1) on probe success the handle
is returned at once, with no sleep beyond those already performed; (2) on a
probe error other than "plugin not available" that error is returned at once
without retrying; (3) with an already-cancelled context the "plugin not
available" error is returned without sleeping; (4) if the probe keeps failing
"not available" and the context first becomes done before attempt `m`, the
poller sleeps once per failed attempt and then returns the "plugin not
available" error; (5) with a probe failing "not available" exactly twice and
then succeeding, under a never-done context, the handle is returned after
exactly two one-second sleeps. -/
theorem capabilityPoll_spec {H E : Type} (probe : Nat → ProbeResult H E)
    (ctxDone : Nat → Bool) (h : H) (e : E) (fuel m : Nat) :
    (ctxDone 0 = false → probe 0 = ProbeResult.ok h →
      indexerPoll probe ctxDone (fuel + 1) 0 0 = some (PollOutcome.handle h, 0) ∧
      eventAPIPoll probe ctxDone (fuel + 1) 0 0 = some (PollOutcome.handle h, 0)) ∧
    (ctxDone 0 = false → probe 0 = ProbeResult.otherErr e →
      indexerPoll probe ctxDone (fuel + 1) 0 0 = some (PollOutcome.err e, 0) ∧
      eventAPIPoll probe ctxDone (fuel + 1) 0 0 = some (PollOutcome.err e, 0)) ∧
    (ctxDone 0 = true →
      indexerPoll probe ctxDone (fuel + 1) 0 0 = some (PollOutcome.notAvailableErr, 0) ∧
      eventAPIPoll probe ctxDone (fuel + 1) 0 0 = some (PollOutcome.notAvailableErr, 0)) ∧
    ((∀ d, d < m → probe d = ProbeResult.notAvailable) →
      (∀ d, d < m → ctxDone d = false) → ctxDone m = true →
      indexerPoll probe ctxDone (fuel + m + 1) 0 0 = some (PollOutcome.notAvailableErr, m) ∧
      eventAPIPoll probe ctxDone (fuel + m + 1) 0 0 = some (PollOutcome.notAvailableErr, m)) ∧
    ((∀ d, d < 2 → probe d = ProbeResult.notAvailable) → probe 2 = ProbeResult.ok h →
      (∀ d, ctxDone d = false) →
      indexerPoll probe ctxDone (fuel + 3) 0 0 = some (PollOutcome.handle h, 2) ∧
      eventAPIPoll probe ctxDone (fuel + 3) 0 0 = some (PollOutcome.handle h, 2)) := by
  refine ⟨?_, ?_, ?_, ?_, ?_⟩
  · intro hc hp
    rw [eventAPIPoll_eq_indexerPoll]
    constructor <;> simp [indexerPoll, hc, hp]
  · intro hc hp
    rw [eventAPIPoll_eq_indexerPoll]
    constructor <;> simp [indexerPoll, hc, hp]
  · intro hc
    rw [eventAPIPoll_eq_indexerPoll]
    constructor <;> simp [indexerPoll, hc]
  · intro hp hc hcm
    rw [eventAPIPoll_eq_indexerPoll]
    have hsteps := indexerPoll_notAvail_steps probe ctxDone m (fuel + 1) 0 0
      (fun d hd => by simpa using hp d hd) (fun d hd => by simpa using hc d hd)
    have harr : fuel + m + 1 = (fuel + 1) + m := by omega
    rw [harr, hsteps]
    constructor <;> simp [indexerPoll, hcm]
  · intro hp hp2 hc
    rw [eventAPIPoll_eq_indexerPoll]
    have hsteps := indexerPoll_notAvail_steps probe ctxDone 2 (fuel + 1) 0 0
      (fun d hd => by simpa using hp d hd) (fun d _ => by simpa using hc d)
    have harr : fuel + 3 = (fuel + 1) + 2 := by omega
    rw [harr, hsteps]
    constructor <;> simp [indexerPoll, hc 2, hp2]

/-- C5 witness at concrete inputs: a probe failing "not available" twice then
succeeding, under a never-done context, yields the handle after exactly two
sleeps; an already-cancelled context yields "not available" with zero sleeps. -/
theorem capabilityPoll_spec_witness :
    (indexerPoll (H := Nat) (E := Nat)
        (fun i => if i < 2 then ProbeResult.notAvailable else ProbeResult.ok 42)
        (fun _ => false) 10 0 0 = some (PollOutcome.handle 42, 2) ∧
      eventAPIPoll (H := Nat) (E := Nat)
        (fun i => if i < 2 then ProbeResult.notAvailable else ProbeResult.ok 42)
        (fun _ => false) 10 0 0 = some (PollOutcome.handle 42, 2)) ∧
    (indexerPoll (H := Nat) (E := Nat)
        (fun i => if i < 2 then ProbeResult.notAvailable else ProbeResult.ok 42)
        (fun _ => true) 10 0 0 = some (PollOutcome.notAvailableErr, 0) ∧
      eventAPIPoll (H := Nat) (E := Nat)
        (fun i => if i < 2 then ProbeResult.notAvailable else ProbeResult.ok 42)
        (fun _ => true) 10 0 0 = some (PollOutcome.notAvailableErr, 0)) :=
  ⟨(capabilityPoll_spec (H := Nat) (E := Nat)
      (fun i => if i < 2 then ProbeResult.notAvailable else ProbeResult.ok 42)
      (fun _ => false) 42 0 7 0).2.2.2.2 (by decide) (by decide) (fun _ => rfl),
   (capabilityPoll_spec (H := Nat) (E := Nat)
      (fun i => if i < 2 then ProbeResult.notAvailable else ProbeResult.ok 42)
      (fun _ => true) 42 0 9 0).2.2.1 rfl⟩

/-! ### Data model: commitments, node status, the `nodeBridge` record
(part_000 lines 108-124) -/

structure Commitment where
  id : Nat
  slot : Nat
deriving DecidableEq, Repr

structure NodeStatus where
  healthy : Bool
  latestCommitment : Commitment
  latestFinalizedCommitment : Commitment
  pruningEpoch : Nat
deriving DecidableEq, Repr

/-- Shallow embedding of the `nodeBridge` struct fields the claims touch.
`conn` and `client` are both modelled by the transport connection value the
client wraps (`inx.NewINXClient(conn)`); `apiProvider` is modelled by the
configuration it was derived from (`nodeConfig.APIProvider()`); `connClosed`
records whether `conn.Close()` has been called on the stored connection. -/
structure NodeBridgeState (C G : Type) where
  targetNetworkName : String
  conn : Option C
  connClosed : Bool
  client : Option C
  nodeConfig : Option G
  apiProvider : Option G
  nodeStatus : Option NodeStatus
  latestCommitment : Option Commitment
  latestFinalizedCommitment : Option Commitment

/-- Read accessor `LatestCommitment` (returns the cached snapshot field). -/
def LatestCommitment {C G : Type} (n : NodeBridgeState C G) : Option Commitment :=
  n.latestCommitment

/-- Read accessor `LatestFinalizedCommitment` (returns the cached snapshot
field). -/
def LatestFinalizedCommitment {C G : Type} (n : NodeBridgeState C G) : Option Commitment :=
  n.latestFinalizedCommitment

/-- Modelled from the spec: `processNodeStatus` is called by `Connect` and by
the status subscription but its body is not among the provided sources; per
section 4.4 each received status derives a fresh snapshot "replacing the
whole value, never mutating the previous one in place" and stores it. -/
def processNodeStatus {C G : Type} (s : NodeStatus) (n : NodeBridgeState C G) :
    NodeBridgeState C G :=
  { n with
    nodeStatus := some s
    latestCommitment := some s.latestCommitment
    latestFinalizedCommitment := some s.latestFinalizedCommitment }

/-! ### Connection manager: `Connect` (part_000 lines 157-197)

The external collaborators are supplied by an environment record: the result
of the transport dial, the result of each configuration-fetch attempt, the
network name embedded in a configuration's active protocol parameters, and
the result of the node-status read.  The configured grpc-retry interceptor
(`grpcretry.WithMax maxAttempts`, one-second backoff returned before every
attempt but the first) is embedded as `retryLoop`, following the
interceptor's documented contract: with a zero max the call is a single plain
invocation; otherwise up to `maxAttempts` attempts run, a backoff wait
precedes every attempt after the first, and exhausting the attempts returns
the last error. -/

structure ConnectEnv (C G E : Type) where
  dial : Except E C
  fetch : Nat → Except E G
  networkName : G → String
  readNodeStatus : Except E NodeStatus

inductive ConnectErr (E : Type) where
  | external : E → ConnectErr E
  | networkMismatch : String → String → ConnectErr E
deriving DecidableEq, Repr

/-- The bounded retry loop of the configured grpc-retry interceptor.
Arguments: remaining attempts, attempt index, backoff waits performed so far.
`none` only when no attempts remain at entry; on exhaustion the last
attempt's error is returned together with the wait count. -/
def retryLoop {G E : Type} (fetch : Nat → Except E G) :
    Nat → Nat → Nat → Option (Except E G × Nat)
  | 0, _, _ => none
  | rem + 1, i, w =>
    let w' := if i = 0 then w else w + 1
    match fetch i with
    | Except.ok cfg => some (Except.ok cfg, w')
    | Except.error e =>
      match retryLoop fetch rem (i + 1) w' with
      | none => some (Except.error e, w')
      | some r => some r

/-- `ReadNodeConfiguration` as invoked by `Connect`: the unary call wrapped in
the retry interceptor, returning the final result and the number of
one-second backoff waits performed. -/
def readNodeConfiguration {G E : Type} (fetch : Nat → Except E G) (maxAttempts : Nat) :
    Except E G × Nat :=
  if maxAttempts = 0 then (fetch 0, 0)
  else (retryLoop fetch maxAttempts 0 0).getD (fetch 0, 0)

/-- Shallow embedding of `Connect`: dial (fatal on failure, before any retry
machinery), store `conn` and `client`, fetch the node configuration under the
bounded retry policy, store `nodeConfig` and `apiProvider`, check the target
network name when one is configured, read the node status once, and hand it
to `processNodeStatus`.  Returns the updated bridge state, the result, and
the number of one-second backoff waits performed. -/
def connect {C G E : Type} (env : ConnectEnv C G E) (maxAttempts : Nat)
    (n : NodeBridgeState C G) :
    NodeBridgeState C G × Except (ConnectErr E) Unit × Nat :=
  match env.dial with
  | Except.error e => (n, Except.error (ConnectErr.external e), 0)
  | Except.ok conn =>
    let n1 := { n with conn := some conn, client := some conn }
    match readNodeConfiguration env.fetch maxAttempts with
    | (Except.error e, w) => (n1, Except.error (ConnectErr.external e), w)
    | (Except.ok cfg, w) =>
      let n2 := { n1 with nodeConfig := some cfg, apiProvider := some cfg }
      if n2.targetNetworkName ≠ "" ∧ n2.targetNetworkName ≠ env.networkName cfg then
        (n2, Except.error (ConnectErr.networkMismatch (env.networkName cfg)
          n2.targetNetworkName), w)
      else
        match env.readNodeStatus with
        | Except.error e => (n2, Except.error (ConnectErr.external e), w)
        | Except.ok s => (processNodeStatus s n2, Except.ok (), w)

/-- Helper: from a positive attempt index (so every attempt is preceded by a
wait), if all remaining attempts fail, the loop returns the last attempt's
error, having added one wait per attempt. -/
theorem retryLoop_allFail_pos {G E : Type} (fetch : Nat → Except E G) (es : Nat → E) :
    ∀ (rem : Nat), 1 ≤ rem → ∀ (i w : Nat), 1 ≤ i →
      (∀ d, d < rem → fetch (i + d) = Except.error (es (i + d))) →
      retryLoop fetch rem i w = some (Except.error (es (i + rem - 1)), w + rem) := by
  intro rem
  induction rem with
  | zero => intro h; exact absurd h (by omega)
  | succ rem ih =>
    intro _ i w hi hf
    have hi0 : ¬ i = 0 := by omega
    have hfi : fetch i = Except.error (es i) := by simpa using hf 0 (by omega)
    by_cases hrem : rem = 0
    · subst hrem
      simp [retryLoop, hi0, hfi]
    · have hrec := ih (by omega) (i + 1) (w + 1) (by omega)
        (fun d hd => by
          have := hf (d + 1) (by omega)
          simpa [Nat.add_assoc, Nat.add_comm, Nat.add_left_comm] using this)
      simp only [retryLoop, hi0, if_false, hfi, hrec]
      have h1 : i + 1 + rem - 1 = i + (rem + 1) - 1 := by omega
      have h2 : w + 1 + rem = w + (rem + 1) := by omega
      simp [h1, h2]

/-- Helper: from a positive attempt index, if the first `m` remaining attempts
fail and attempt `i + m` succeeds (with `m` below the remaining budget), the
loop returns the fetched configuration having added `m + 1` waits. -/
theorem retryLoop_firstSuccess_pos {G E : Type} (fetch : Nat → Except E G) (es : Nat → E)
    (cfg : G) :
    ∀ (m rem i w : Nat), 1 ≤ i → m < rem →
      (∀ d, d < m → fetch (i + d) = Except.error (es (i + d))) →
      fetch (i + m) = Except.ok cfg →
      retryLoop fetch rem i w = some (Except.ok cfg, w + m + 1) := by
  intro m
  induction m with
  | zero =>
    intro rem i w hi hrem _ hok
    obtain ⟨rem', rfl⟩ : ∃ rem', rem = rem' + 1 := ⟨rem - 1, by omega⟩
    have hi0 : ¬ i = 0 := by omega
    simp only [Nat.add_zero] at hok
    simp [retryLoop, hi0, hok]
  | succ m ih =>
    intro rem i w hi hrem hf hok
    obtain ⟨rem', rfl⟩ : ∃ rem', rem = rem' + 1 := ⟨rem - 1, by omega⟩
    have hi0 : ¬ i = 0 := by omega
    have hfi : fetch i = Except.error (es i) := by simpa using hf 0 (by omega)
    have hrec := ih rem' (i + 1) (w + 1) (by omega) (by omega)
      (fun d hd => by
        have := hf (d + 1) (by omega)
        simpa [Nat.add_assoc, Nat.add_comm, Nat.add_left_comm] using this)
      (by
        have h1 : i + 1 + m = i + (m + 1) := by omega
        rw [h1]; exact hok)
    simp only [retryLoop, hi0, if_false, hfi, hrec]
    have h2 : w + 1 + m + 1 = w + (m + 1) + 1 := by omega
    simp [h2]

/-- Helper: a configuration fetch whose first `maxAttempts` attempts all fail
exhausts the budget and yields the last error after `maxAttempts - 1`
backoff waits (no wait precedes the first attempt). -/
theorem readNodeConfiguration_allFail {G E : Type} (fetch : Nat → Except E G)
    (es : Nat → E) (maxAttempts : Nat) (hmax : 1 ≤ maxAttempts)
    (hf : ∀ d, d < maxAttempts → fetch d = Except.error (es d)) :
    readNodeConfiguration fetch maxAttempts =
      (Except.error (es (maxAttempts - 1)), maxAttempts - 1) := by
  obtain ⟨m, rfl⟩ : ∃ m, maxAttempts = m + 1 := ⟨maxAttempts - 1, by omega⟩
  have hf0 : fetch 0 = Except.error (es 0) := hf 0 (by omega)
  rw [readNodeConfiguration, if_neg (by omega)]
  by_cases hm : m = 0
  · subst hm
    simp [retryLoop, hf0]
  · have hrec := retryLoop_allFail_pos fetch es m (by omega) 1 0 (by omega)
      (fun d hd => by simpa [Nat.add_comm] using hf (1 + d) (by omega))
    simp only [retryLoop, hf0]
    norm_num
    rw [hrec]
    have h1 : 1 + m - 1 = m := by omega
    have h2 : 0 + m = m := by omega
    simp [h1, h2]

/-- Helper: a configuration fetch whose first `m` attempts fail and whose
attempt `m` (within budget) succeeds yields the configuration after exactly
`m` backoff waits. -/
theorem readNodeConfiguration_firstSuccess {G E : Type} (fetch : Nat → Except E G)
    (es : Nat → E) (cfg : G) (maxAttempts m : Nat) (hm : m < maxAttempts)
    (hf : ∀ d, d < m → fetch d = Except.error (es d))
    (hok : fetch m = Except.ok cfg) :
    readNodeConfiguration fetch maxAttempts = (Except.ok cfg, m) := by
  obtain ⟨M, rfl⟩ : ∃ M, maxAttempts = M + 1 := ⟨maxAttempts - 1, by omega⟩
  rw [readNodeConfiguration, if_neg (by omega)]
  by_cases hm0 : m = 0
  · subst hm0
    simp [retryLoop, hok]
  · have hf0 : fetch 0 = Except.error (es 0) := hf 0 (by omega)
    have hrec := retryLoop_firstSuccess_pos fetch es cfg (m - 1) M 1 0 (by omega) (by omega)
      (fun d hd => by simpa [Nat.add_comm] using hf (1 + d) (by omega))
      (by
        have h1 : 1 + (m - 1) = m := by omega
        rw [h1]; exact hok)
    simp only [retryLoop, hf0]
    norm_num
    rw [hrec]
    have h2 : 0 + (m - 1) + 1 = m := by omega
    simp [h2]
    omega

/-- C6: (a) a transport dial failure is returned immediately, with no retry
and no backoff wait, leaving the bridge state untouched; (b) when every
configuration-fetch attempt fails, `Connect` returns the last attempt's error
after exhausting the `maxAttempts` budget with `maxAttempts - 1` one-second
backoff waits; (c) when the fetch fails `maxAttempts - 1` times and then
succeeds, `Connect` succeeds after exactly `maxAttempts - 1` one-second
backoff waits. -/
theorem connect_retry_policy {C G E : Type} (env : ConnectEnv C G E)
    (n : NodeBridgeState C G) (maxAttempts : Nat) (e : E) (es : Nat → E)
    (cfg : G) (s : NodeStatus) (c : C) :
    (env.dial = Except.error e →
      connect env maxAttempts n = (n, Except.error (ConnectErr.external e), 0)) ∧
    (env.dial = Except.ok c → 1 ≤ maxAttempts →
      (∀ d, d < maxAttempts → env.fetch d = Except.error (es d)) →
      (connect env maxAttempts n).2 =
        (Except.error (ConnectErr.external (es (maxAttempts - 1))), maxAttempts - 1)) ∧
    (env.dial = Except.ok c → 1 ≤ maxAttempts →
      (∀ d, d < maxAttempts - 1 → env.fetch d = Except.error (es d)) →
      env.fetch (maxAttempts - 1) = Except.ok cfg →
      n.targetNetworkName = "" →
      env.readNodeStatus = Except.ok s →
      (connect env maxAttempts n).2 = (Except.ok (), maxAttempts - 1)) := by
  refine ⟨?_, ?_, ?_⟩
  · intro hdial
    simp [connect, hdial]
  · intro hdial hmax hf
    have hcfg := readNodeConfiguration_allFail env.fetch es maxAttempts hmax hf
    simp [connect, hdial, hcfg]
  · intro hdial hmax hf hok htgt hstat
    have hcfg := readNodeConfiguration_firstSuccess env.fetch es cfg maxAttempts
      (maxAttempts - 1) (by omega) hf hok
    simp [connect, hdial, hcfg, htgt, hstat]

/-- C6 witness at concrete inputs: with `maxAttempts = 3` and a fetch failing
twice then succeeding, `Connect` succeeds after exactly two backoff waits. -/
theorem connect_retry_policy_witness :
    (connect (C := Nat) (G := Nat) (E := Nat)
      { dial := Except.ok 1
        fetch := fun i => if i < 2 then Except.error i else Except.ok 5
        networkName := fun _ => "net"
        readNodeStatus := Except.ok ⟨true, ⟨0, 0⟩, ⟨0, 0⟩, 0⟩ } 3
      { targetNetworkName := ""
        conn := none
        connClosed := false
        client := none
        nodeConfig := none
        apiProvider := none
        nodeStatus := none
        latestCommitment := none
        latestFinalizedCommitment := none }).2 = (Except.ok (), 2) := by
  exact (connect_retry_policy (C := Nat) (G := Nat) (E := Nat)
    { dial := Except.ok 1
      fetch := fun i => if i < 2 then Except.error i else Except.ok 5
      networkName := fun _ => "net"
      readNodeStatus := Except.ok ⟨true, ⟨0, 0⟩, ⟨0, 0⟩, 0⟩ }
    { targetNetworkName := ""
      conn := none
      connClosed := false
      client := none
      nodeConfig := none
      apiProvider := none
      nodeStatus := none
      latestCommitment := none
      latestFinalizedCommitment := none } 3 0 (fun i => i) 5
    ⟨true, ⟨0, 0⟩, ⟨0, 0⟩, 0⟩ 1).2.2 rfl (by omega)
    (fun d hd => by
      have : d < 2 := by omega
      simp [this])
    (by norm_num) rfl rfl

/-- C7: (a) with a non-empty configured target network name differing from the
network name in the fetched configuration's protocol parameters, `Connect`
returns the mismatch error without any further backoff wait, and its entire
behaviour is independent of the node-status read (the status is not read);
(b) with an empty configured target network name the check is skipped
entirely: `Connect`'s behaviour is independent of the network name embedded
in the configuration. -/
theorem connect_network_name_check {C G E : Type} (env : ConnectEnv C G E)
    (n : NodeBridgeState C G) (maxAttempts : Nat) (c : C) (cfg : G) (w : Nat)
    (f : G → String) (r : Except E NodeStatus) :
    (env.dial = Except.ok c →
      readNodeConfiguration env.fetch maxAttempts = (Except.ok cfg, w) →
      ¬ n.targetNetworkName = "" → ¬ n.targetNetworkName = env.networkName cfg →
      (connect env maxAttempts n).2 =
        (Except.error (ConnectErr.networkMismatch (env.networkName cfg)
          n.targetNetworkName), w) ∧
      connect { env with readNodeStatus := r } maxAttempts n = connect env maxAttempts n) ∧
    (n.targetNetworkName = "" →
      connect { env with networkName := f } maxAttempts n = connect env maxAttempts n) := by
  constructor
  · intro hdial hcfg ht hmm
    constructor
    · simp [connect, hdial, hcfg, ht, hmm]
    · simp [connect, hdial, hcfg, ht, hmm]
  · intro htgt
    cases hdial : env.dial with
    | error e => simp [connect, hdial]
    | ok c' =>
      rcases hcfg : readNodeConfiguration env.fetch maxAttempts with ⟨res, w'⟩
      cases res with
      | error e => simp [connect, hdial, hcfg]
      | ok cfg' => simp [connect, hdial, hcfg, htgt]

/-- C7 witness at concrete inputs: target name `foo` against network name
`bar` yields the mismatch error without reading the status; an empty target
name makes the behaviour independent of the network name. -/
theorem connect_network_name_check_witness :
    (connect (C := Nat) (G := Nat) (E := Nat)
      { dial := Except.ok 1
        fetch := fun _ => Except.ok 5
        networkName := fun _ => "bar"
        readNodeStatus := Except.ok ⟨true, ⟨0, 0⟩, ⟨0, 0⟩, 0⟩ } 1
      { targetNetworkName := "foo"
        conn := none
        connClosed := false
        client := none
        nodeConfig := none
        apiProvider := none
        nodeStatus := none
        latestCommitment := none
        latestFinalizedCommitment := none }).2 =
      (Except.error (ConnectErr.networkMismatch "bar" "foo"), 0) ∧
    connect (C := Nat) (G := Nat) (E := Nat)
      { dial := Except.ok 1
        fetch := fun _ => Except.ok 5
        networkName := fun _ => "baz"
        readNodeStatus := Except.ok ⟨true, ⟨0, 0⟩, ⟨0, 0⟩, 0⟩ } 1
      { targetNetworkName := ""
        conn := none
        connClosed := false
        client := none
        nodeConfig := none
        apiProvider := none
        nodeStatus := none
        latestCommitment := none
        latestFinalizedCommitment := none } =
    connect (C := Nat) (G := Nat) (E := Nat)
      { dial := Except.ok 1
        fetch := fun _ => Except.ok 5
        networkName := fun _ => "bar"
        readNodeStatus := Except.ok ⟨true, ⟨0, 0⟩, ⟨0, 0⟩, 0⟩ } 1
      { targetNetworkName := ""
        conn := none
        connClosed := false
        client := none
        nodeConfig := none
        apiProvider := none
        nodeStatus := none
        latestCommitment := none
        latestFinalizedCommitment := none } := by
  constructor
  · exact ((connect_network_name_check (C := Nat) (G := Nat) (E := Nat)
      { dial := Except.ok 1
        fetch := fun _ => Except.ok 5
        networkName := fun _ => "bar"
        readNodeStatus := Except.ok ⟨true, ⟨0, 0⟩, ⟨0, 0⟩, 0⟩ }
      { targetNetworkName := "foo"
        conn := none
        connClosed := false
        client := none
        nodeConfig := none
        apiProvider := none
        nodeStatus := none
        latestCommitment := none
        latestFinalizedCommitment := none } 1 1 5 0 (fun _ => "bar")
      (Except.ok ⟨true, ⟨0, 0⟩, ⟨0, 0⟩, 0⟩)).1 rfl rfl (by decide) (by decide)).1
  · exact (connect_network_name_check (C := Nat) (G := Nat) (E := Nat)
      { dial := Except.ok 1
        fetch := fun _ => Except.ok 5
        networkName := fun _ => "bar"
        readNodeStatus := Except.ok ⟨true, ⟨0, 0⟩, ⟨0, 0⟩, 0⟩ }
      { targetNetworkName := ""
        conn := none
        connClosed := false
        client := none
        nodeConfig := none
        apiProvider := none
        nodeStatus := none
        latestCommitment := none
        latestFinalizedCommitment := none } 1 1 5 0 (fun _ => "baz")
      (Except.ok ⟨true, ⟨0, 0⟩, ⟨0, 0⟩, 0⟩)).2 rfl

/-- C10: `Connect` is not atomic on failure.  Whenever the dial succeeds but a
later step fails — (a) the configuration fetch exhausts its budget, (b) the
network name mismatches, or (c) the node-status read fails — `Connect`
returns the error while the bridge state keeps the stored open connection and
client (and in cases (b) and (c) also the stored configuration and API
provider); `connClosed` stays exactly as it was, so the connection is never
closed on these paths. -/
theorem connect_partial_state_on_failure {C G E : Type} (env : ConnectEnv C G E)
    (n : NodeBridgeState C G) (maxAttempts : Nat) (c : C) (e : E) (cfg : G) (w : Nat) :
    (env.dial = Except.ok c →
      readNodeConfiguration env.fetch maxAttempts = (Except.error e, w) →
      connect env maxAttempts n =
        ({ n with conn := some c, client := some c },
          Except.error (ConnectErr.external e), w)) ∧
    (env.dial = Except.ok c →
      readNodeConfiguration env.fetch maxAttempts = (Except.ok cfg, w) →
      ¬ n.targetNetworkName = "" → ¬ n.targetNetworkName = env.networkName cfg →
      connect env maxAttempts n =
        ({ n with
            conn := some c
            client := some c
            nodeConfig := some cfg
            apiProvider := some cfg },
          Except.error (ConnectErr.networkMismatch (env.networkName cfg)
            n.targetNetworkName), w)) ∧
    (env.dial = Except.ok c →
      readNodeConfiguration env.fetch maxAttempts = (Except.ok cfg, w) →
      n.targetNetworkName = "" →
      env.readNodeStatus = Except.error e →
      connect env maxAttempts n =
        ({ n with
            conn := some c
            client := some c
            nodeConfig := some cfg
            apiProvider := some cfg },
          Except.error (ConnectErr.external e), w)) := by
  refine ⟨?_, ?_, ?_⟩
  · intro hdial hcfg
    simp [connect, hdial, hcfg]
  · intro hdial hcfg ht hmm
    simp [connect, hdial, hcfg, ht, hmm]
  · intro hdial hcfg htgt hstat
    simp [connect, hdial, hcfg, htgt, hstat]

/-- C10 witness at a concrete input: a successful dial followed by an
exhausted configuration fetch leaves the connection and client stored and
unclosed while the error is returned. -/
theorem connect_partial_state_on_failure_witness :
    connect (C := Nat) (G := Nat) (E := Nat)
      { dial := Except.ok 1
        fetch := fun _ => Except.error 3
        networkName := fun _ => "bar"
        readNodeStatus := Except.ok ⟨true, ⟨0, 0⟩, ⟨0, 0⟩, 0⟩ } 1
      { targetNetworkName := ""
        conn := none
        connClosed := false
        client := none
        nodeConfig := none
        apiProvider := none
        nodeStatus := none
        latestCommitment := none
        latestFinalizedCommitment := none } =
      ({ targetNetworkName := ""
         conn := some 1
         connClosed := false
         client := some 1
         nodeConfig := none
         apiProvider := none
         nodeStatus := none
         latestCommitment := none
         latestFinalizedCommitment := none },
        Except.error (ConnectErr.external 3), 0) :=
  (connect_partial_state_on_failure (C := Nat) (G := Nat) (E := Nat)
    { dial := Except.ok 1
      fetch := fun _ => Except.error 3
      networkName := fun _ => "bar"
      readNodeStatus := Except.ok ⟨true, ⟨0, 0⟩, ⟨0, 0⟩, 0⟩ }
    { targetNetworkName := ""
      conn := none
      connClosed := false
      client := none
      nodeConfig := none
      apiProvider := none
      nodeStatus := none
      latestCommitment := none
      latestFinalizedCommitment := none } 1 1 3 5 0).1 rfl rfl

/-! ### Status cache (spec section 4.4; the bodies of `listenToNodeStatus`
and `processNodeStatus` are not among the provided sources, so the per-update
path is modelled from the spec) -/

/-- The cached state after the bridge has processed a sequence of status
updates in arrival order, each through `processNodeStatus`. -/
def cacheAfter {C G : Type} (n0 : NodeBridgeState C G) (updates : List NodeStatus) :
    NodeBridgeState C G :=
  updates.foldl (fun st u => processNodeStatus u st) n0

/-- The latest-commitment slot as observed through `LatestCommitment`
(0 while the cache is still empty). -/
def obsLatestSlot {C G : Type} (n : NodeBridgeState C G) : Nat :=
  (LatestCommitment n).elim 0 Commitment.slot

/-- The latest-finalized-commitment slot as observed through
`LatestFinalizedCommitment` (0 while the cache is still empty). -/
def obsFinalizedSlot {C G : Type} (n : NodeBridgeState C G) : Nat :=
  (LatestFinalizedCommitment n).elim 0 Commitment.slot

/-- Helper: processing one more update replaces the snapshot wholesale. -/
theorem cacheAfter_take_succ {C G : Type} (n0 : NodeBridgeState C G)
    (updates : List NodeStatus) (i : Nat) (hi : i < updates.length) :
    cacheAfter n0 (updates.take (i + 1)) =
      processNodeStatus (updates.get ⟨i, hi⟩) (cacheAfter n0 (updates.take i)) := by
  rw [cacheAfter, List.take_succ, List.foldl_append]
  rw [List.getElem?_eq_getElem hi]
  rfl

/-- Helper: after `i + 1` updates the cached commitments are exactly those of
the `i`-th update. -/
theorem cacheAfter_take_fields {C G : Type} (n0 : NodeBridgeState C G)
    (updates : List NodeStatus) (i : Nat) (hi : i < updates.length) :
    (cacheAfter n0 (updates.take (i + 1))).latestCommitment =
      some (updates.get ⟨i, hi⟩).latestCommitment ∧
    (cacheAfter n0 (updates.take (i + 1))).latestFinalizedCommitment =
      some (updates.get ⟨i, hi⟩).latestFinalizedCommitment := by
  rw [cacheAfter_take_succ n0 updates i hi]
  exact ⟨rfl, rfl⟩

/-- C8: over any sequence of status updates whose own commitments are
internally consistent (finalized slot ≤ latest slot) and whose slot indices
are non-decreasing in arrival order — the spec's external-ordering assumption
on slots — every cached snapshot satisfies
`latestFinalizedCommitment.slot ≤ latestCommitment.slot`, and the slots
observed through `LatestCommitment` and `LatestFinalizedCommitment` never
regress as further updates are processed. -/
theorem statusCache_slot_invariants {C G : Type} (n0 : NodeBridgeState C G)
    (updates : List NodeStatus)
    (h0c : n0.latestCommitment = none) (h0f : n0.latestFinalizedCommitment = none)
    (hwf : ∀ u ∈ updates, u.latestFinalizedCommitment.slot ≤ u.latestCommitment.slot)
    (hmonoL : ∀ (i j : Nat) (hi : i < updates.length) (hj : j < updates.length), i ≤ j →
      (updates.get ⟨i, hi⟩).latestCommitment.slot ≤
        (updates.get ⟨j, hj⟩).latestCommitment.slot)
    (hmonoF : ∀ (i j : Nat) (hi : i < updates.length) (hj : j < updates.length), i ≤ j →
      (updates.get ⟨i, hi⟩).latestFinalizedCommitment.slot ≤
        (updates.get ⟨j, hj⟩).latestFinalizedCommitment.slot) :
    (∀ i, i ≤ updates.length →
      ∀ lc lf, LatestCommitment (cacheAfter n0 (updates.take i)) = some lc →
        LatestFinalizedCommitment (cacheAfter n0 (updates.take i)) = some lf →
        lf.slot ≤ lc.slot) ∧
    (∀ i j, i ≤ j → j ≤ updates.length →
      obsLatestSlot (cacheAfter n0 (updates.take i)) ≤
        obsLatestSlot (cacheAfter n0 (updates.take j)) ∧
      obsFinalizedSlot (cacheAfter n0 (updates.take i)) ≤
        obsFinalizedSlot (cacheAfter n0 (updates.take j))) := by
  constructor
  · intro i hi lc lf hlc hlf
    cases i with
    | zero =>
      rw [List.take_zero] at hlc
      rw [LatestCommitment] at hlc
      simp only [cacheAfter, List.foldl_nil] at hlc
      rw [h0c] at hlc
      exact absurd hlc (by simp)
    | succ i' =>
      have hi' : i' < updates.length := by omega
      obtain ⟨hc, hf⟩ := cacheAfter_take_fields n0 updates i' hi'
      rw [LatestCommitment, hc] at hlc
      rw [LatestFinalizedCommitment, hf] at hlf
      obtain rfl : lc = (updates.get ⟨i', hi'⟩).latestCommitment := by
        exact (Option.some.injEq _ _ ▸ hlc).symm
      obtain rfl : lf = (updates.get ⟨i', hi'⟩).latestFinalizedCommitment := by
        exact (Option.some.injEq _ _ ▸ hlf).symm
      exact hwf _ (List.get_mem updates _ _)
  · intro i j hij hj
    cases i with
    | zero =>
      have hz : obsLatestSlot (cacheAfter n0 (updates.take 0)) = 0 := by
        simp [obsLatestSlot, LatestCommitment, cacheAfter, h0c]
      have hzf : obsFinalizedSlot (cacheAfter n0 (updates.take 0)) = 0 := by
        simp [obsFinalizedSlot, LatestFinalizedCommitment, cacheAfter, h0f]
      rw [hz, hzf]
      exact ⟨Nat.zero_le _, Nat.zero_le _⟩
    | succ i' =>
      cases j with
      | zero => omega
      | succ j' =>
        have hi' : i' < updates.length := by omega
        have hj' : j' < updates.length := by omega
        obtain ⟨hci, hfi⟩ := cacheAfter_take_fields n0 updates i' hi'
        obtain ⟨hcj, hfj⟩ := cacheAfter_take_fields n0 updates j' hj'
        constructor
        · rw [obsLatestSlot, obsLatestSlot, LatestCommitment, LatestCommitment, hci, hcj]
          exact hmonoL i' j' hi' hj' (by omega)
        · rw [obsFinalizedSlot, obsFinalizedSlot, LatestFinalizedCommitment,
            LatestFinalizedCommitment, hfi, hfj]
          exact hmonoF i' j' hi' hj' (by omega)

/-- Concrete empty initial bridge state used by the C8 witness. -/
def exCacheSt0 : NodeBridgeState Nat Nat :=
  { targetNetworkName := ""
    conn := none
    connClosed := false
    client := none
    nodeConfig := none
    apiProvider := none
    nodeStatus := none
    latestCommitment := none
    latestFinalizedCommitment := none }

/-- Concrete well-formed, slot-monotone update sequence used by the C8
witness. -/
def exCacheUpdates : List NodeStatus :=
  [⟨true, ⟨1, 5⟩, ⟨2, 3⟩, 0⟩, ⟨true, ⟨3, 8⟩, ⟨4, 6⟩, 0⟩]

/-- C8 witness at a concrete input: after two well-formed, slot-monotone
updates the cached finalized slot stays below the cached latest slot, and
neither observed slot regressed from the first update to the second. -/
theorem statusCache_slot_invariants_witness :
    Commitment.slot ⟨4, 6⟩ ≤ Commitment.slot ⟨3, 8⟩ ∧
    (obsLatestSlot (cacheAfter exCacheSt0 (exCacheUpdates.take 1)) ≤
        obsLatestSlot (cacheAfter exCacheSt0 (exCacheUpdates.take 2)) ∧
      obsFinalizedSlot (cacheAfter exCacheSt0 (exCacheUpdates.take 1)) ≤
        obsFinalizedSlot (cacheAfter exCacheSt0 (exCacheUpdates.take 2))) := by
  have h := statusCache_slot_invariants (C := Nat) (G := Nat) exCacheSt0 exCacheUpdates
    rfl rfl
    (by decide)
    (fun i j hi hj hij => by
      simp only [exCacheUpdates, List.length_cons, List.length_nil] at hi hj
      interval_cases i <;> interval_cases j <;> simp_all [exCacheUpdates])
    (fun i j hi hj hij => by
      simp only [exCacheUpdates, List.length_cons, List.length_nil] at hi hj
      interval_cases i <;> interval_cases j <;> simp_all [exCacheUpdates])
  exact ⟨h.1 2 (by decide) ⟨3, 8⟩ ⟨4, 6⟩ rfl rfl, h.2 1 2 (by omega) (by decide)⟩

/-! ### Facade shutdown: `Run` (part_000 lines 200-212)

`Run` derives a child cancellable context `c`, starts
`listenToNodeStatus(c)` in a background goroutine that calls `cancel()` when
the listen returns, blocks on `<-c.Done()`, and then calls `conn.Close()`.
The two tasks are modelled as a labelled transition system over
interleavings: `parentCancel` is the cancellation of `Run`'s own context
(which also makes the child `c` done), `bgStop` is the background task's
listen returning (the task stops receiving), `bgCancel` is its subsequent
`cancel()` call, and `connClose` is the main task's `conn.Close()` after
`<-c.Done()` unblocked. -/

inductive RunEvent where
  | parentCancel
  | bgStop
  | bgCancel
  | connClose
deriving DecidableEq, Repr

structure RunState where
  parentCancelled : Bool
  bgStopped : Bool
  cancelCalled : Bool
  closed : Bool
deriving DecidableEq, Repr

def initialRunState : RunState :=
  { parentCancelled := false, bgStopped := false, cancelCalled := false, closed := false }

/-- The child context `c` is done iff the parent context was cancelled or the
background task has called `cancel()`. -/
def runDone (s : RunState) : Bool := s.parentCancelled || s.cancelCalled

/-- Which events can fire in a state: the parent can be cancelled once; the
background task stops once and only then calls `cancel()`; the main task
closes the connection once, as soon as `<-c.Done()` has unblocked. -/
def runEnabled (s : RunState) : RunEvent → Bool
  | RunEvent.parentCancel => !s.parentCancelled
  | RunEvent.bgStop => !s.bgStopped
  | RunEvent.bgCancel => s.bgStopped && !s.cancelCalled
  | RunEvent.connClose => runDone s && !s.closed

def runApply (s : RunState) : RunEvent → RunState
  | RunEvent.parentCancel => { s with parentCancelled := true }
  | RunEvent.bgStop => { s with bgStopped := true }
  | RunEvent.bgCancel => { s with cancelCalled := true }
  | RunEvent.connClose => { s with closed := true }

/-- A trace is valid when every event is enabled in the state it fires from. -/
def validTrace : RunState → List RunEvent → Bool
  | _, [] => true
  | s, e :: es => runEnabled s e && validTrace (runApply s e) es

/-- The states at which a `connClose` event fires along a trace. -/
def closeStates : RunState → List RunEvent → List RunState
  | _, [] => []
  | s, e :: es =>
    (if e = RunEvent.connClose then [s] else []) ++ closeStates (runApply s e) es

/-- The state reached at the end of a trace. -/
def runFinal : RunState → List RunEvent → RunState
  | s, [] => s
  | s, e :: es => runFinal (runApply s e) es

/-- A trace is a completed run of `Run` when neither of `Run`'s own tasks has
a step left at its end: the background task can no longer stop (it already
did) nor call `cancel()`, and the main task can no longer close the
connection.  `parentCancel` is an environment event, so a completed run does
not require the parent context to have been cancelled. -/
def programMaximal (s : RunState) (tr : List RunEvent) : Bool :=
  !runEnabled (runFinal s tr) RunEvent.bgStop &&
    (!runEnabled (runFinal s tr) RunEvent.bgCancel &&
      !runEnabled (runFinal s tr) RunEvent.connClose)

/-- C1 counterexample: when the context passed to `Run` is cancelled, the
main task's `<-c.Done()` unblocks at once and `conn.Close()` can run while
the background task is still receiving: the interleaving
`[parentCancel, connClose]` is a valid trace that closes the connection
although `bgStop` never occurred (the close fires in a state with
`bgStopped = false`), refuting the claim that the close happens only after
the background task has observably stopped. -/
theorem run_close_race_counterexample :
    validTrace initialRunState [RunEvent.parentCancel, RunEvent.connClose] = true ∧
    RunEvent.connClose ∈ [RunEvent.parentCancel, RunEvent.connClose] ∧
    RunEvent.bgStop ∉ [RunEvent.parentCancel, RunEvent.connClose] ∧
    ∀ s ∈ closeStates initialRunState [RunEvent.parentCancel, RunEvent.connClose],
      s.bgStopped = false := by
  decide

/-- Helper invariant for C1: along any valid trace from a state where
`cancel()` implies the background task already stopped, the connection is
closed at most once (never, from an already-closed state), every close fires
with the child context done, and — when the parent context is never
cancelled — every close fires after the background task stopped. -/
theorem run_trace_inv (tr : List RunEvent) :
    ∀ s : RunState, validTrace s tr = true →
      (s.cancelCalled = true → s.bgStopped = true) →
      ((closeStates s tr).length ≤ if s.closed then 0 else 1) ∧
      (∀ st ∈ closeStates s tr, runDone st = true) ∧
      (RunEvent.parentCancel ∉ tr → s.parentCancelled = false →
        ∀ st ∈ closeStates s tr, st.bgStopped = true) := by
  induction tr with
  | nil =>
    intro s _ _
    refine ⟨?_, ?_, ?_⟩
    · simp [closeStates]
    · simp [closeStates]
    · simp [closeStates]
  | cons e es ih =>
    intro s hv hinv
    have hv' : runEnabled s e = true ∧ validTrace (runApply s e) es = true := by
      simpa [validTrace, Bool.and_eq_true] using hv
    cases e with
    | parentCancel =>
      have hnext := ih (runApply s RunEvent.parentCancel) hv'.2
        (by simpa [runApply] using hinv)
      refine ⟨?_, ?_, ?_⟩
      · simpa [closeStates, runApply] using hnext.1
      · simpa [closeStates, runApply] using hnext.2.1
      · intro hmem
        exact absurd (by simp) hmem
    | bgStop =>
      have hnext := ih (runApply s RunEvent.bgStop) hv'.2
        (by simp [runApply])
      refine ⟨?_, ?_, ?_⟩
      · simpa [closeStates, runApply] using hnext.1
      · simpa [closeStates, runApply] using hnext.2.1
      · intro hmem hpc
        have hmem' : RunEvent.parentCancel ∉ es := fun h => hmem (by simp [h])
        simpa [closeStates, runApply] using hnext.2.2 hmem' (by simpa [runApply] using hpc)
    | bgCancel =>
      have hen : s.bgStopped = true ∧ s.cancelCalled = false := by
        simpa [runEnabled, Bool.and_eq_true] using hv'.1
      have hnext := ih (runApply s RunEvent.bgCancel) hv'.2
        (by simp [runApply, hen.1])
      refine ⟨?_, ?_, ?_⟩
      · simpa [closeStates, runApply] using hnext.1
      · simpa [closeStates, runApply] using hnext.2.1
      · intro hmem hpc
        have hmem' : RunEvent.parentCancel ∉ es := fun h => hmem (by simp [h])
        simpa [closeStates, runApply] using hnext.2.2 hmem' (by simpa [runApply] using hpc)
    | connClose =>
      have hen : runDone s = true ∧ s.closed = false := by
        simpa [runEnabled, Bool.and_eq_true] using hv'.1
      have hnext := ih (runApply s RunEvent.connClose) hv'.2
        (by simpa [runApply] using hinv)
      have hclosed : (runApply s RunEvent.connClose).closed = true := by simp [runApply]
      refine ⟨?_, ?_, ?_⟩
      · have hlen : (closeStates (runApply s RunEvent.connClose) es).length = 0 := by
          have := hnext.1
          rw [hclosed] at this
          simpa using this
        simp [closeStates, hen.2, hlen]
      · intro st hst
        rcases (by simpa [closeStates] using hst :
            st = s ∨ st ∈ closeStates (runApply s RunEvent.connClose) es) with h | h
        · exact h ▸ hen.1
        · exact hnext.2.1 st h
      · intro hmem hpc st hst
        rcases (by simpa [closeStates] using hst :
            st = s ∨ st ∈ closeStates (runApply s RunEvent.connClose) es) with h | h
        · subst h
          have hcc : st.cancelCalled = true := by
            have := hen.1
            rw [runDone, hpc] at this
            simpa using this
          exact hinv hcc
        · have hmem' : RunEvent.parentCancel ∉ es := fun hh => hmem (by simp [hh])
          exact hnext.2.2 hmem' (by simpa [runApply] using hpc) st h

/-- Helper for C1: whenever a trace starts unclosed and ends closed, a
`connClose` event fired along it (closing happens only through `connClose`). -/
theorem closeStates_pos_of_closed (tr : List RunEvent) :
    ∀ s : RunState, s.closed = false → (runFinal s tr).closed = true →
      1 ≤ (closeStates s tr).length := by
  induction tr with
  | nil =>
    intro s h1 h2
    rw [runFinal] at h2
    rw [h1] at h2
    cases h2
  | cons e es ih =>
    intro s h1 h2
    cases e with
    | parentCancel =>
      have := ih (runApply s RunEvent.parentCancel) (by simpa [runApply] using h1)
        (by simpa [runFinal] using h2)
      simpa [closeStates] using this
    | bgStop =>
      have := ih (runApply s RunEvent.bgStop) (by simpa [runApply] using h1)
        (by simpa [runFinal] using h2)
      simpa [closeStates] using this
    | bgCancel =>
      have := ih (runApply s RunEvent.bgCancel) (by simpa [runApply] using h1)
        (by simpa [runFinal] using h2)
      simpa [closeStates] using this
    | connClose =>
      simp [closeStates]

/-- Helper for C1: at the end of a completed run the connection has been
closed: the background task having no step left means it stopped and called
`cancel()`, hence the child context is done, so the main task's close being
disabled can only mean it already happened. -/
theorem runFinal_closed_of_maximal (s : RunState) (tr : List RunEvent)
    (hm : programMaximal s tr = true) :
    (runFinal s tr).closed = true := by
  rw [programMaximal, Bool.and_eq_true, Bool.and_eq_true] at hm
  obtain ⟨hstop, hcancel, hclose⟩ := hm
  have hbg : (runFinal s tr).bgStopped = true := by
    simpa [runEnabled] using hstop
  have hcc : (runFinal s tr).cancelCalled = true := by
    rw [runEnabled, Bool.not_eq_true', Bool.and_eq_false_iff] at hcancel
    rcases hcancel with h | h
    · rw [hbg] at h
      cases h
    · simpa using h
  rw [runEnabled, Bool.not_eq_true', Bool.and_eq_false_iff] at hclose
  rcases hclose with h | h
  · rw [runDone, hcc, Bool.or_true] at h
    cases h
  · simpa using h

/-- C1 amended: along every valid interleaving of `Run`'s two tasks, the
transport-close action occurs at most once and only once the child context is
done (the parent context cancelled or the background task finished and called
`cancel()`); in every completed run — a valid trace with no task step left —
it occurs exactly once; and when the parent context is never cancelled, every
close occurs only after the background task has stopped receiving.  (The
"only after the background task stopped" part of the original claim fails in
the parent-cancellation case, see `run_close_race_counterexample`.) -/
theorem run_shutdown_amended (tr : List RunEvent)
    (h : validTrace initialRunState tr = true) :
    (closeStates initialRunState tr).length ≤ 1 ∧
    (programMaximal initialRunState tr = true →
      (closeStates initialRunState tr).length = 1) ∧
    (∀ st ∈ closeStates initialRunState tr, runDone st = true) ∧
    (RunEvent.parentCancel ∉ tr →
      ∀ st ∈ closeStates initialRunState tr, st.bgStopped = true) := by
  have hmain := run_trace_inv tr initialRunState h (by simp [initialRunState])
  have hle : (closeStates initialRunState tr).length ≤ 1 := by
    have := hmain.1
    simpa [initialRunState] using this
  refine ⟨hle, ?_, hmain.2.1, ?_⟩
  · intro hm
    have hclosed := runFinal_closed_of_maximal initialRunState tr hm
    have hge := closeStates_pos_of_closed tr initialRunState (by simp [initialRunState])
      hclosed
    omega
  · intro hmem
    exact hmain.2.2 hmem (by simp [initialRunState])

/-- C1 witness at a concrete trace: the normal shutdown interleaving is a
completed run and closes the connection exactly once, with the child context
done, after the background task stopped. -/
theorem run_shutdown_amended_witness :
    (closeStates initialRunState
        [RunEvent.bgStop, RunEvent.bgCancel, RunEvent.connClose]).length = 1 ∧
    (∀ st ∈ closeStates initialRunState
        [RunEvent.bgStop, RunEvent.bgCancel, RunEvent.connClose], runDone st = true) ∧
    (∀ st ∈ closeStates initialRunState
        [RunEvent.bgStop, RunEvent.bgCancel, RunEvent.connClose], st.bgStopped = true) := by
  refine ⟨?_, ?_, ?_⟩
  · exact (run_shutdown_amended [RunEvent.bgStop, RunEvent.bgCancel, RunEvent.connClose]
      (by decide)).2.1 (by decide)
  · exact (run_shutdown_amended [RunEvent.bgStop, RunEvent.bgCancel, RunEvent.connClose]
      (by decide)).2.2.1
  · exact (run_shutdown_amended [RunEvent.bgStop, RunEvent.bgCancel, RunEvent.connClose]
      (by decide)).2.2.2 (by decide)

/-! ### `ListenToBlocks` per-item handler (part_002 lines 57-71) -/

inductive HandlerOutcome (E : Type) where
  | ok : HandlerOutcome E
  | err : E → HandlerOutcome E
  | panicked : HandlerOutcome E
deriving DecidableEq, Repr

/-- The per-item handler `ListenToBlocks` passes to `ListenToStream`:
`consumer(block.MustUnwrapBlock(n.apiProvider), block.GetBlock().GetData())`.
`decode` models `UnwrapBlock` under the current API (`none` marks a payload
that cannot be decoded); `MustUnwrapBlock` panics on such a payload instead
of returning the decode error, modelled by the `panicked` outcome. -/
def listenToBlocksHandler {R B E : Type} (decode : R → Option B) (getData : R → List Nat)
    (consumer : B → List Nat → Option E) (raw : R) : HandlerOutcome E :=
  match decode raw with
  | none => HandlerOutcome.panicked
  | some b =>
    match consumer b (getData raw) with
    | none => HandlerOutcome.ok
    | some e => HandlerOutcome.err e

/-- C9: on any streamed block whose payload cannot be decoded under the
current API, the per-item handler used by `ListenToBlocks` panics (via
`MustUnwrapBlock`) and in particular never surfaces a decode error to the
caller — the handler is not total over received blocks. -/
theorem listenToBlocksHandler_panics {R B E : Type} (decode : R → Option B)
    (getData : R → List Nat) (consumer : B → List Nat → Option E) (raw : R)
    (h : decode raw = none) :
    listenToBlocksHandler decode getData consumer raw = HandlerOutcome.panicked ∧
    ∀ e, ¬ listenToBlocksHandler decode getData consumer raw = HandlerOutcome.err e := by
  constructor
  · simp [listenToBlocksHandler, h]
  · intro e
    simp [listenToBlocksHandler, h]

/-- C9 witness at a concrete input: a block whose payload fails to decode
makes the handler panic rather than return an error. -/
theorem listenToBlocksHandler_panics_witness :
    listenToBlocksHandler (R := Nat) (B := Nat) (E := Nat) (fun _ => none) (fun _ => [])
      (fun _ _ => none) 0 = HandlerOutcome.panicked ∧
    ∀ e, ¬ listenToBlocksHandler (R := Nat) (B := Nat) (E := Nat) (fun _ => none)
      (fun _ => []) (fun _ _ => none) 0 = HandlerOutcome.err e :=
  listenToBlocksHandler_panics (fun _ => none) (fun _ => []) (fun _ _ => none) 0 rfl

end InxApp
